import Mathlib

/-!
Verification of the atun CLI repository against its natural-language
specification.

Shallow-embedding conventions used throughout this file:

* Go `int` is modelled as `Int`.
* A Go function returning `(T, error)` is modelled as `Except String T`;
  a function returning only `error` is modelled as `Option String`
  (`none` = nil error) or `Except String Unit`.
* Decimal digit strings produced by `strconv.Itoa` and consumed by
  `strconv.Atoi` are modelled as big-endian lists of decimal digits
  (`Nat.digits`-based), which carries exactly the information the source
  uses: the digit count and the value after prefix concatenation.
* External I/O (AWS API calls, the free-port allocator, the INI loader,
  the wall clock) is modelled by passing the call outcomes as explicit
  parameters.
-/

/-! ### C1 — CalculateLocalPort (src/internal/tunnel/tunnel.go) -/

/-! ## Definitions (shallow embedding of the source) -/

/-- Go `strconv.Itoa n` for `n ≥ 0`, as the big-endian list of decimal
digits (empty for `0`; the source only applies it to positive ports). -/
def itoa (n : Nat) : List Nat := (Nat.digits 10 n).reverse

/-- Go `strconv.Atoi` applied to a string of decimal digits, as the numeric
value of a big-endian digit list. -/
def atoiDigits (ds : List Nat) : Nat := Nat.ofDigits 10 ds.reverse

/-- Embedding of `CalculateLocalPort` (src/internal/tunnel/tunnel.go lines
266-285): validate `0 < remotePort ≤ 65535`; render the port in decimal;
if it has exactly 4 digits prefix `"1"`, if it has at most 3 digits prefix
`"100"`, otherwise (5 digits) return it unchanged. -/
def CalculateLocalPort (remotePort : Int) : Except String Int :=
  if remotePort ≤ 0 ∨ 65535 < remotePort then
    Except.error ("invalid port number: " ++ toString remotePort)
  else
    let s := itoa remotePort.toNat
    if s.length = 4 then Except.ok (Int.ofNat (atoiDigits (1 :: s)))
    else if s.length ≤ 3 then Except.ok (Int.ofNat (atoiDigits (1 :: 0 :: 0 :: s)))
    else Except.ok remotePort

/-- Embedding of `config.Endpoint` (src/internal/config/config.go): one
forwarded service. Field names follow the Go struct; JSON tags are
`proto`/`remote`/`local`, and `Name` has no JSON tag. -/
structure Endpoint where
  Name : String := ""
  Proto : String := ""
  Remote : Int := 0
  Local : Int := 0
  deriving DecidableEq, Repr

/-- JSON values as used by the tag schema (arrays omitted; no tag payload in
this schema carries one). -/
inductive Json where
  | str : String → Json
  | num : Int → Json
  | bool : Bool → Json
  | null : Json
  | obj : List (String × Json) → Json

deriving instance DecidableEq for Except

def jsonEscapeChar (c : Char) : List Char :=
  if c = '"' ∨ c = '\\' then ['\\', c] else [c]

/-- Go-style JSON string quoting (control-character escaping elided; no tag
in the claims contains such characters). -/
def jsonQuote (s : String) : String :=
  String.mk ('"' :: (s.data.map jsonEscapeChar).flatten ++ ['"'])

mutual

/-- Rendering of a JSON value as a string, as Go `json.Marshal` produces it
(object members in the order stored, which mirrors Go's sorted-key map
rendering for the payloads built below). -/
def jsonText : Json → String
  | Json.str s => jsonQuote s
  | Json.num n => toString n
  | Json.bool b => if b then "true" else "false"
  | Json.null => "null"
  | Json.obj kvs => "\x7b" ++ jsonMembersText kvs ++ "\x7d"

def jsonMembersText : List (String × Json) → String
  | [] => ""
  | [(k, v)] => jsonQuote k ++ ":" ++ jsonText v
  | (k, v) :: kv2 :: rest =>
    jsonQuote k ++ ":" ++ jsonText v ++ "," ++ jsonMembersText (kv2 :: rest)

end

/-- A raw AWS tag value string. The Go code stores tag values as strings and
parses host values with `json.Unmarshal`; the JSON transport is modelled at
the JSON-value level: `jsonVal j` stands for the marshalled rendering of `j`
(a string whose JSON parse yields `j` back), while `plain s` stands for a
literal string that is not the marshalled form of any payload — unmarshalling
it as a host config is a JSON parse failure. Version/env tag values are only
ever read back verbatim via `tagText`. -/
inductive TagValue where
  | jsonVal : Json → TagValue
  | plain : String → TagValue

/-- The underlying raw string of a tag value. -/
def tagText : TagValue → String
  | TagValue.jsonVal j => jsonText j
  | TagValue.plain s => s

/-- Case-insensitive JSON-key-to-struct-field matching of Go `encoding/json`
(ASCII case folding on the key, compared against the lowercase field name). -/
def jsonKeyIs (jsonKey fieldName : String) : Bool :=
  jsonKey.data.map Char.toLower == fieldName.data

def decodeStringField (fieldMsg : String) (cur : String) : Json → Except String String
  | Json.str s => Except.ok s
  | Json.null => Except.ok cur
  | Json.num _ => Except.error fieldMsg
  | Json.bool _ => Except.error fieldMsg
  | Json.obj _ => Except.error fieldMsg

def decodeIntField (fieldMsg : String) (cur : Int) : Json → Except String Int
  | Json.num n => Except.ok n
  | Json.null => Except.ok cur
  | Json.str _ => Except.error fieldMsg
  | Json.bool _ => Except.error fieldMsg
  | Json.obj _ => Except.error fieldMsg

/-- One member step of Go `json.Unmarshal` into `config.Endpoint`: keys match
fields case-insensitively, `null` leaves the field unchanged, a type mismatch
is an error, unknown keys are ignored. `Name` is decodable because the Go
field carries no `json:"-"` tag (only a `jsonschema` tag), though the caller
always overwrites it afterwards. -/
def setEndpointField (e : Endpoint) (k : String) (v : Json) : Except String Endpoint :=
  if jsonKeyIs k "proto" then
    (decodeStringField "json: cannot unmarshal value into field Proto" e.Proto v).map
      (fun s => { e with Proto := s })
  else if jsonKeyIs k "remote" then
    (decodeIntField "json: cannot unmarshal value into field Remote" e.Remote v).map
      (fun n => { e with Remote := n })
  else if jsonKeyIs k "local" then
    (decodeIntField "json: cannot unmarshal value into field Local" e.Local v).map
      (fun n => { e with Local := n })
  else if jsonKeyIs k "name" then
    (decodeStringField "json: cannot unmarshal value into field Name" e.Name v).map
      (fun s => { e with Name := s })
  else Except.ok e

/-- Go `json.Unmarshal` of a parsed JSON value into a zero-valued
`config.Endpoint`. -/
def unmarshalEndpointJson : Json → Except String Endpoint
  | Json.obj kvs => kvs.foldlM (fun e kv => setEndpointField e kv.1 kv.2) {}
  | Json.null => Except.ok {}
  | Json.str _ => Except.error "json: cannot unmarshal value into config.Endpoint"
  | Json.num _ => Except.error "json: cannot unmarshal value into config.Endpoint"
  | Json.bool _ => Except.error "json: cannot unmarshal value into config.Endpoint"

/-- Go `json.Unmarshal([]byte(v), &endpoint)` on a raw tag value. -/
def unmarshalEndpoint : TagValue → Except String Endpoint
  | TagValue.plain s => Except.error ("invalid character in " ++ s)
  | TagValue.jsonVal j => unmarshalEndpointJson j

/-- Go `strings.HasPrefix`, at the character-list level. -/
def goHasPre (s pre : String) : Bool := pre.data.isPrefixOf s.data

/-- Go `strings.TrimPrefix`: removes `pre` from the front of `s` when
present, otherwise returns `s` unchanged. -/
def goTrimLeading (s pre : String) : String :=
  if goHasPre s pre then String.mk (s.data.drop pre.data.length) else s

/-- The fields of `config.Config` that the router-host-config fold touches
(the full Go struct has many more, all untouched by the fold). -/
structure Config where
  Env : String := ""
  RouterHostUser : String := ""
  Hosts : List Endpoint := []
  deriving DecidableEq, Repr

/-- Embedding of `config.Atun` (version plus configuration; the live AWS
session handle is not representable and not used by the claims). -/
structure Atun where
  Version : String := ""
  Config : Config := {}
  deriving DecidableEq, Repr

/-- The tag-folding loop of `GetRouterHostConfig`. Go iterates the tag map in
unspecified order; the model folds the tag list in the given order. `alloc`
models `getFreePort` (the outcome of its n-th call); `calls` counts allocator
calls made so far. Mirrors the source: non-`atun.io` keys are ignored, the
version/env tags copy the raw string, host tags are JSON-unmarshalled (a
decode failure skips that tag), the name is re-derived from the key suffix,
and a zero local port is either freshly allocated (flag set) or aborts the
whole fold with the "can't allocate port 0" error. -/
def processHostTags (autoAllocatePort : Bool) (alloc : Nat → Except String Int) :
    List (String × TagValue) → Atun → Nat → Except String Atun
  | [], atun, _ => Except.ok atun
  | (k, v) :: rest, atun, calls =>
    if goHasPre k "atun.io" then
      if k = "atun.io/version" then
        processHostTags autoAllocatePort alloc rest { atun with Version := tagText v } calls
      else if k = "atun.io/env" then
        processHostTags autoAllocatePort alloc rest
          { atun with Config := { atun.Config with Env := tagText v } } calls
      else if goHasPre k "atun.io/host/" then
        match unmarshalEndpoint v with
        | Except.error _ => processHostTags autoAllocatePort alloc rest atun calls
        | Except.ok e0 =>
          let e1 : Endpoint := { e0 with Name := goTrimLeading k "atun.io/host/" }
          if e1.Local = 0 then
            if autoAllocatePort then
              match alloc calls with
              | Except.error msg => Except.error msg
              | Except.ok port =>
                processHostTags autoAllocatePort alloc rest
                  { atun with Config := { atun.Config with
                      Hosts := atun.Config.Hosts ++ [{ e1 with Local := port }] } }
                  (calls + 1)
            else Except.error ("can't allocate port " ++ toString e1.Local)
          else
            processHostTags autoAllocatePort alloc rest
              { atun with Config := { atun.Config with
                  Hosts := atun.Config.Hosts ++ [e1] } } calls
      else processHostTags autoAllocatePort alloc rest atun calls
    else processHostTags autoAllocatePort alloc rest atun calls

/-- Embedding of `GetRouterHostConfig` (tunnel package): fetch the router's
tags, resolve its SSH login user, then fold the tags into an `Atun` value.
The AWS calls are passed as outcomes (`tagsResult` for `GetInstanceTags`,
`userResult` for `GetInstanceUsername`). -/
def GetRouterHostConfig (autoAllocatePort : Bool) (alloc : Nat → Except String Int)
    (tagsResult : Except String (List (String × TagValue)))
    (userResult : Except String String) : Except String Atun :=
  match tagsResult with
  | Except.error e => Except.error e
  | Except.ok tags =>
    match userResult with
    | Except.error e => Except.error e
    | Except.ok sshUser =>
      processHostTags autoAllocatePort alloc tags
        { Config := { RouterHostUser := sshUser } } 0

/-- Tag key for one endpoint as synthesised by `createStack`
(src/internal/infra/cdktf.go line 79). -/
def hostTagKey (e : Endpoint) : String := "atun.io/host/" ++ e.Name

/-- JSON payload for one endpoint as synthesised by `createStack` (lines
80-84): the `proto`/`local`/`remote` map, with members in Go's sorted
map-key marshalling order. -/
def hostTagJson (e : Endpoint) : Json :=
  Json.obj [("local", Json.num e.Local), ("proto", Json.str e.Proto),
    ("remote", Json.num e.Remote)]

/-- The tag set computed by `createStack` (lines 65-94): the schema version,
the environment label, and one JSON-valued host tag per endpoint. (Go builds
a map; endpoints with duplicate names would collapse — the claims use
distinct names.) -/
def createStackTags (version env : String) (hosts : List Endpoint) :
    List (String × TagValue) :=
  ("atun.io/version", TagValue.plain version) ::
  ("atun.io/env", TagValue.plain env) ::
  hosts.map (fun e => (hostTagKey e, TagValue.jsonVal (hostTagJson e)))

/-- A tag entry that is a host tag whose payload decodes successfully with
local port 0 — the shape that triggers the port-allocation branch. -/
def zeroLocalHostTag (kv : String × TagValue) : Prop :=
  goHasPre kv.1 "atun.io/host/" = true ∧
    ∃ e0, unmarshalEndpoint kv.2 = Except.ok e0 ∧ e0.Local = 0

/-- Per-entry check of `validateHostConfig` (src/internal/constraints/
constraints.go lines 211-231): the first failing field's error, in source
order (Name, Remote, Local, Proto), or `none` when the entry is valid. -/
def hostEntryError (h : Endpoint) : Option String :=
  if h.Name = "" then some "Endpoint Name is not set. Please set it via config file."
  else if h.Remote ≤ 0 then some "Endpoint Remote port is not set. Please set it via config file."
  else if h.Local < 0 then some "Endpoint Local port is not set. Please set it via config file."
  else if h.Proto = "" then some "Endpoint Protocol is not set. Please set it via config file."
  else none

/-- Embedding of `validateHostConfig` (constraints.go lines 203-234): an
empty endpoint list is an error; otherwise the first failing entry's error
is returned (`none` = the Go nil error). -/
def validateHostConfig (cfg : Atun) : Option String :=
  if cfg.Config.Hosts = [] then
    some "endpoints config is not set. Please set it via command line or environment variables."
  else cfg.Config.Hosts.findSome? hostEntryError

/-- The fields of an SSM `GetCommandInvocation` response consumed by
`EnsureSSHPublicKeyPresent` (src/internal/aws/aws.go). `ResponseCode` is a
nullable pointer in the AWS SDK, hence an `Option`. -/
structure Invocation where
  Status : String
  ResponseCode : Option Int
  StandardOutputContent : String
  StandardErrorContent : String
  deriving DecidableEq, Repr

/-- The break condition of the polling loop (aws.go line 1028): the call
succeeded, status is Success, and a response code is present. -/
def pollBreak : Except String Invocation → Bool
  | Except.ok out => out.Status == "Success" && out.ResponseCode.isSome
  | Except.error _ => false

/-- The polling loop of `EnsureSSHPublicKeyPresent` (lines 1022-1032): up to
`fuel` attempts (5 in the source), keeping the last attempt's outcome and
stopping early when the break condition holds. `polls i` is the outcome of
the i-th `GetCommandInvocation` call; the 2-second sleep between attempts
has no observable effect in the embedding. -/
def runPolls (polls : Nat → Except String Invocation) : Nat → Nat → Except String Invocation
  | i, 0 => polls i
  | i, 1 => polls i
  | i, Nat.succ (Nat.succ m) =>
    if pollBreak (polls i) then polls i else runPolls polls (i + 1) (Nat.succ m)

/-- Occurrence test for a character list inside another (some suffix starts
with the pattern). -/
def listContainsSub : List Char → List Char → Bool
  | l, sub =>
    if sub.isPrefixOf l then true
    else match l with
      | [] => false
      | _ :: tl => listContainsSub tl sub

/-- Substring test of Go `strings.Contains`, at the character-list level. -/
def goContains (s sub : String) : Bool := listContainsSub s.data sub.data

/-- Embedding of `EnsureSSHPublicKeyPresent` (aws.go lines 988-1054) from the
`SendCommand` dispatch onward: poll the invocation up to 5 times, then apply
the localstack criterion (endpoint contains "localhost" or "127.0.0.1":
status alone decides) or the real-endpoint criterion (error only when the
response code is nonzero AND the status differs from Success). A nil
`ResponseCode` dereference on the real-endpoint path is a Go runtime panic,
modelled as a distinguished error. -/
def EnsureSSHPublicKeyPresent (awsEndpointUrl : String)
    (sendResult : Except String Unit)
    (polls : Nat → Except String Invocation) : Except String Unit :=
  match sendResult with
  | Except.error e => Except.error ("can't send SSH public publicKey: " ++ e)
  | Except.ok _ =>
    match runPolls polls 0 5 with
    | Except.error e => Except.error ("can't get command invocation: " ++ e)
    | Except.ok output =>
      if goContains awsEndpointUrl "localhost" || goContains awsEndpointUrl "127.0.0.1" then
        if output.Status ≠ "Success" then
          Except.error ("command failed " ++ output.StandardOutputContent ++ ": " ++
            output.StandardErrorContent ++ ", ")
        else Except.ok ()
      else
        match output.ResponseCode with
        | none => Except.error "panic: invalid memory address or nil pointer dereference"
        | some rc =>
          if rc ≠ 0 ∧ output.Status ≠ "Success" then
            Except.error ("command failed with exit code " ++ toString rc ++ ": " ++
              output.StandardErrorContent ++ ", ")
          else Except.ok ()

/-- An INI section: name plus key/value entries, as loaded by the go-ini
library in `isMFAUpdateRequired`. -/
structure IniSection where
  name : String
  keys : List (String × String)
  deriving DecidableEq, Repr

/-- The per-section freshness test inside `isMFAUpdateRequired`: exactly 4
keys, a `token_expiration` key, a parsable value, and an instant not before
now; any failure requires an update (`true`). -/
def mfaSectionStale (parse : String → Option Int) (now : Int) (sect : IniSection) : Bool :=
  if sect.keys.length ≠ 4 then true
  else
    match sect.keys.lookup "token_expiration" with
    | none => true
    | some v =>
      match parse v with
      | none => true
      | some exp => decide (exp < now)

def isMFAUpdateRequired (parse : String → Option Int) (now : Int)
    (loadResult : Option (List IniSection)) (profile : String) : Bool :=
  match loadResult with
  | none => true
  | some sections =>
    match sections.find? (fun s => s.name == profile ++ "-mfa") with
    | none => true
    | some sect => mfaSectionStale parse now sect

/-- Errors crossing the `SaveConfig` boundary. `configFileAlreadyExists` is
viper's `ConfigFileAlreadyExistsError` (a bare string-based error type);
`pathErrorExist` stands for an os-package `*PathError` wrapping EEXIST — a
shape `os.IsExist` recognizes. -/
inductive GoError where
  | configFileAlreadyExists : String → GoError
  | pathErrorExist : String → GoError
  | other : String → GoError
  deriving DecidableEq, Repr

/-- Go `os.IsExist`: true only for os-package error shapes wrapping
`ErrExist` (`*PathError`, `*LinkError`, `*SyscallError`); it predates
`errors.Is` and does not recognize foreign error types such as viper's
`ConfigFileAlreadyExistsError`. -/
def osIsExist : GoError → Bool
  | GoError.pathErrorExist _ => true
  | GoError.configFileAlreadyExists _ => false
  | GoError.other _ => false

/-- Modelled from the viper library (v1.8 and later, as any 2024-era build
resolves): `SafeWriteConfigAs` first checks whether the target file exists
and returns `ConfigFileAlreadyExistsError(filename)` without writing if so;
otherwise it writes the file. Result: (file written?, error). -/
def safeWriteConfigAs (fileExists : Bool) (path : String) : Bool × Option GoError :=
  if fileExists then (false, some (GoError.configFileAlreadyExists path))
  else (true, none)

/-- Embedding of `SaveConfig` (src/internal/config/config.go lines 226-253):
write `atun.toml` into the current working directory via
`viper.SafeWriteConfigAs`; when that fails with an error recognized by
`os.IsExist`, log a warning and return nil; otherwise log and propagate the
error. The outcome records whether a file was written and the returned
error (`none` = Go nil). -/
def SaveConfig (fileExists : Bool) : Bool × Option GoError :=
  match safeWriteConfigAs fileExists "atun.toml" with
  | (wrote, some e) => if osIsExist e then (wrote, none) else (wrote, some e)
  | (wrote, none) => (wrote, none)

/-- One entry of the `DescribeInstances` result as consumed by
`GetRouterHostIDFromTags`: the dereferenced instance id and state name
pointers. -/
structure Ec2Instance where
  InstanceId : String
  StateName : String
  deriving DecidableEq, Repr

/-- Embedding of `GetRouterHostIDFromTags` (tunnel package, newer variant):
the active-tunnel enumeration only logs (its error is returned, nothing
else observable); then the tag query: an error is propagated, an empty
result is the explicit "no instances found" error, otherwise the first
instance with a non-empty id and state "running" is returned — and when no
listed instance qualifies, the fall-through `return "", err` yields the
empty string with the *nil* error still held in `err`. -/
def GetRouterHostIDFromTags
    (activeTunnelsResult : Except String (List String))
    (listResult : Except String (List Ec2Instance)) : Except String String :=
  match activeTunnelsResult with
  | Except.error e => Except.error e
  | Except.ok _ =>
    match listResult with
    | Except.error e => Except.error e
    | Except.ok instances =>
      if instances.length = 0 then
        Except.error "no instances found with required tags and in state RUNNING"
      else
        match instances.find? (fun i => i.InstanceId != "" && i.StateName == "running") with
        | some i => Except.ok i.InstanceId
        | none => Except.ok ""

/-! ## Lemmas and claim theorems -/

lemma atoiDigits_cons (d : Nat) (s : List Nat) :
    atoiDigits (d :: s) = d * 10 ^ s.length + atoiDigits s := by
  simp only [atoiDigits, List.reverse_cons, Nat.ofDigits_append,
    Nat.ofDigits_singleton, List.length_reverse]
  ring

lemma atoiDigits_itoa (n : Nat) : atoiDigits (itoa n) = n := by
  simp [atoiDigits, itoa, Nat.ofDigits_digits]

lemma itoa_length (n k : Nat) (h1 : 10 ^ k ≤ n) (h2 : n < 10 ^ (k + 1)) :
    (itoa n).length = k + 1 := by
  have hpow : 1 ≤ 10 ^ k := Nat.one_le_pow k 10 (by norm_num)
  have hn : n ≠ 0 := by omega
  rw [itoa, List.length_reverse, Nat.digits_len 10 n (by norm_num) hn,
    Nat.log_eq_of_pow_le_of_lt_pow h1 h2]

/-- The branch taken for four-digit ports: prefix `"1"`, i.e. add 10000. -/
lemma CalculateLocalPort_four (p : Int) (h1 : 1000 ≤ p) (h2 : p ≤ 9999) :
    CalculateLocalPort p = Except.ok (10000 + p) := by
  have hcond : ¬(p ≤ 0 ∨ 65535 < p) := by omega
  have hlen : (itoa p.toNat).length = 4 := by
    refine itoa_length p.toNat 3 ?_ ?_ <;> omega
  simp only [CalculateLocalPort, hcond, if_false, hlen, atoiDigits_cons,
    atoiDigits_itoa, List.length_cons]
  norm_num
  omega

/-- The branch taken for three-digit ports: prefix `"100"`, i.e. add 100000. -/
lemma CalculateLocalPort_three (p : Int) (h1 : 100 ≤ p) (h2 : p ≤ 999) :
    CalculateLocalPort p = Except.ok (100000 + p) := by
  have hcond : ¬(p ≤ 0 ∨ 65535 < p) := by omega
  have hlen : (itoa p.toNat).length = 3 := by
    refine itoa_length p.toNat 2 ?_ ?_ <;> omega
  simp only [CalculateLocalPort, hcond, if_false, hlen, atoiDigits_cons,
    atoiDigits_itoa, List.length_cons]
  norm_num
  omega

/-- The branch taken for two-digit ports: prefix `"100"`, i.e. add 10000. -/
lemma CalculateLocalPort_two (p : Int) (h1 : 10 ≤ p) (h2 : p ≤ 99) :
    CalculateLocalPort p = Except.ok (10000 + p) := by
  have hcond : ¬(p ≤ 0 ∨ 65535 < p) := by omega
  have hlen : (itoa p.toNat).length = 2 := by
    refine itoa_length p.toNat 1 ?_ ?_ <;> omega
  simp only [CalculateLocalPort, hcond, if_false, hlen, atoiDigits_cons,
    atoiDigits_itoa, List.length_cons]
  norm_num
  omega

/-- The branch taken for one-digit ports: prefix `"100"`, i.e. add 1000. -/
lemma CalculateLocalPort_one (p : Int) (h1 : 1 ≤ p) (h2 : p ≤ 9) :
    CalculateLocalPort p = Except.ok (1000 + p) := by
  have hcond : ¬(p ≤ 0 ∨ 65535 < p) := by omega
  have hlen : (itoa p.toNat).length = 1 := by
    refine itoa_length p.toNat 0 ?_ ?_ <;> omega
  simp only [CalculateLocalPort, hcond, if_false, hlen, atoiDigits_cons,
    atoiDigits_itoa, List.length_cons]
  norm_num
  omega

/-- The branch taken for five-digit ports: returned unchanged. -/
lemma CalculateLocalPort_five (p : Int) (h1 : 10000 ≤ p) (h2 : p ≤ 65535) :
    CalculateLocalPort p = Except.ok p := by
  have hcond : ¬(p ≤ 0 ∨ 65535 < p) := by omega
  have hlen : (itoa p.toNat).length = 5 := by
    refine itoa_length p.toNat 4 ?_ ?_ <;> omega
  simp [CalculateLocalPort, hcond, hlen]

lemma CalculateLocalPort_invalid (q : Int) (hq : q ≤ 0 ∨ 65535 < q) :
    CalculateLocalPort q = Except.error ("invalid port number: " ++ toString q) := by
  simp [CalculateLocalPort, hq]

/-- C1 (amended): for every remote port `p` with `0 < p ≤ 65535`,
`CalculateLocalPort p` returns without error the value formed by prefixing
the decimal rendering of `p` with `"1"` when `p` has exactly 4 digits
(yielding `10000 + p`), or with `"100"` when `p` has at most 3 digits
(yielding `1000 + p`, `10000 + p`, `100000 + p` for 1-, 2-, 3-digit `p`
respectively — a value that is NOT always 5 digits long), and returns `p`
unchanged when `p` has 5 digits; for every `q` outside `1..65535` it returns
the "invalid port number" error. -/
theorem C1_calculateLocalPort (p q : Int) (hp0 : 0 < p) (hp1 : p ≤ 65535)
    (hq : q ≤ 0 ∨ 65535 < q) :
    (p ≤ 9 → CalculateLocalPort p = Except.ok (1000 + p)) ∧
    (10 ≤ p → p ≤ 99 → CalculateLocalPort p = Except.ok (10000 + p)) ∧
    (100 ≤ p → p ≤ 999 → CalculateLocalPort p = Except.ok (100000 + p)) ∧
    (1000 ≤ p → p ≤ 9999 → CalculateLocalPort p = Except.ok (10000 + p)) ∧
    (10000 ≤ p → CalculateLocalPort p = Except.ok p) ∧
    CalculateLocalPort q = Except.error ("invalid port number: " ++ toString q) := by
  refine ⟨fun h => CalculateLocalPort_one p (by omega) h,
    fun h h2 => CalculateLocalPort_two p h h2,
    fun h h2 => CalculateLocalPort_three p h h2,
    fun h h2 => CalculateLocalPort_four p h h2,
    fun h => CalculateLocalPort_five p h hp1,
    CalculateLocalPort_invalid q hq⟩

/-- C1 witness: the worked examples of the claim, plus the error cases,
obtained by instantiating `C1_calculateLocalPort`. -/
theorem C1_calculateLocalPort_witness :
    CalculateLocalPort 3306 = Except.ok 13306 ∧
    CalculateLocalPort 5006 = Except.ok 15006 ∧
    CalculateLocalPort 22 = Except.ok 10022 ∧
    CalculateLocalPort 80 = Except.ok 10080 ∧
    CalculateLocalPort 0 = Except.error "invalid port number: 0" ∧
    CalculateLocalPort (-1) = Except.error "invalid port number: -1" ∧
    CalculateLocalPort 65536 = Except.error "invalid port number: 65536" := by
  have h3306 := (C1_calculateLocalPort 3306 0 (by norm_num) (by norm_num)
    (Or.inl (by norm_num))).2.2.2.1 (by norm_num) (by norm_num)
  have h5006 := (C1_calculateLocalPort 5006 (-1) (by norm_num) (by norm_num)
    (Or.inl (by norm_num))).2.2.2.1 (by norm_num) (by norm_num)
  have h22 := (C1_calculateLocalPort 22 65536 (by norm_num) (by norm_num)
    (Or.inr (by norm_num))).2.1 (by norm_num) (by norm_num)
  have h80 := (C1_calculateLocalPort 80 0 (by norm_num) (by norm_num)
    (Or.inl (by norm_num))).2.1 (by norm_num) (by norm_num)
  have e0 := (C1_calculateLocalPort 1 0 (by norm_num) (by norm_num)
    (Or.inl (by norm_num))).2.2.2.2.2
  have em1 := (C1_calculateLocalPort 1 (-1) (by norm_num) (by norm_num)
    (Or.inl (by norm_num))).2.2.2.2.2
  have e65536 := (C1_calculateLocalPort 1 65536 (by norm_num) (by norm_num)
    (Or.inr (by norm_num))).2.2.2.2.2
  norm_num at h3306 h5006 h22 h80
  exact ⟨h3306, h5006, h22, h80, e0, em1, e65536⟩

/-- C1 counterexample: the claim asserts the successful result is always a
5-digit value, but `CalculateLocalPort 443 = 100443` has 6 digits (the
`"100"` prefix on a 3-digit port overshoots) and `CalculateLocalPort 8 =
1008` has only 4 digits. -/
theorem C1_counterexample :
    CalculateLocalPort 443 = Except.ok 100443 ∧ ¬((100443 : Int) < 100000) ∧
    CalculateLocalPort 8 = Except.ok 1008 ∧ ((1008 : Int) < 10000) := by
  have h443 := CalculateLocalPort_three 443 (by norm_num) (by norm_num)
  have h8 := CalculateLocalPort_one 8 (by norm_num) (by norm_num)
  norm_num at h443 h8
  exact ⟨h443, by norm_num, h8, by norm_num⟩

lemma goHasPre_append (pre r : String) : goHasPre (pre ++ r) pre = true := by
  show pre.data.isPrefixOf (pre.data ++ r.data) = true
  exact List.isPrefixOf_iff_prefix.mpr ⟨r.data, rfl⟩

lemma hostKey_goHasPre_atun (n : String) :
    goHasPre ("atun.io/host/" ++ n) "atun.io" = true := by
  show ("atun.io".data).isPrefixOf ("atun.io/host/".data ++ n.data) = true
  refine List.isPrefixOf_iff_prefix.mpr ?_
  refine List.IsPrefix.trans ?_ (List.prefix_append _ _)
  decide

lemma hostKey_ne_version (n : String) : "atun.io/host/" ++ n ≠ "atun.io/version" := by
  intro h
  have hd : "atun.io/host/".data ++ n.data = "atun.io/version".data :=
    congrArg String.data h
  have hpre : "atun.io/host/".data <+: "atun.io/version".data := ⟨n.data, hd⟩
  exact absurd hpre (by decide)

lemma hostKey_ne_env (n : String) : "atun.io/host/" ++ n ≠ "atun.io/env" := by
  intro h
  have hd : "atun.io/host/".data ++ n.data = "atun.io/env".data :=
    congrArg String.data h
  have hpre : "atun.io/host/".data <+: "atun.io/env".data := ⟨n.data, hd⟩
  exact absurd hpre (by decide)

lemma goTrimLeading_append (pre r : String) : goTrimLeading (pre ++ r) pre = r := by
  rw [goTrimLeading, if_pos (goHasPre_append pre r)]
  show String.mk ((pre.data ++ r.data).drop pre.data.length) = r
  rw [List.drop_left]

lemma goHasPre_atun_of_host (k : String) (hk : goHasPre k "atun.io/host/" = true) :
    goHasPre k "atun.io" = true := by
  have h1 := List.isPrefixOf_iff_prefix.mp hk
  exact List.isPrefixOf_iff_prefix.mpr (List.IsPrefix.trans (by decide) h1)

lemma ne_version_of_hostPre (k : String) (hk : goHasPre k "atun.io/host/" = true) :
    k ≠ "atun.io/version" := by
  rintro rfl
  revert hk
  decide

lemma ne_env_of_hostPre (k : String) (hk : goHasPre k "atun.io/host/" = true) :
    k ≠ "atun.io/env" := by
  rintro rfl
  revert hk
  decide

lemma processHostTags_nil (a : Bool) (al : Nat → Except String Int) (atun : Atun) (c : Nat) :
    processHostTags a al [] atun c = Except.ok atun := rfl

lemma processHostTags_notatun {a : Bool} {al : Nat → Except String Int} {k : String}
    {v : TagValue} {rest : List (String × TagValue)} {atun : Atun} {c : Nat}
    (h : goHasPre k "atun.io" = false) :
    processHostTags a al ((k, v) :: rest) atun c = processHostTags a al rest atun c := by
  simp [processHostTags, h]

lemma processHostTags_version {a : Bool} {al : Nat → Except String Int}
    {v : TagValue} {rest : List (String × TagValue)} {atun : Atun} {c : Nat} :
    processHostTags a al (("atun.io/version", v) :: rest) atun c =
      processHostTags a al rest { atun with Version := tagText v } c := by
  simp [processHostTags,
    (by decide : goHasPre "atun.io/version" "atun.io" = true)]

lemma processHostTags_env {a : Bool} {al : Nat → Except String Int}
    {v : TagValue} {rest : List (String × TagValue)} {atun : Atun} {c : Nat} :
    processHostTags a al (("atun.io/env", v) :: rest) atun c =
      processHostTags a al rest
        { atun with Config := { atun.Config with Env := tagText v } } c := by
  simp [processHostTags,
    (by decide : goHasPre "atun.io/env" "atun.io" = true)]

lemma processHostTags_host_skip {a : Bool} {al : Nat → Except String Int} {k : String}
    {v : TagValue} {rest : List (String × TagValue)} {atun : Atun} {c : Nat} {msg : String}
    (hk : goHasPre k "atun.io/host/" = true) (hv : unmarshalEndpoint v = Except.error msg) :
    processHostTags a al ((k, v) :: rest) atun c = processHostTags a al rest atun c := by
  simp [processHostTags, goHasPre_atun_of_host k hk, ne_version_of_hostPre k hk,
    ne_env_of_hostPre k hk, hk, hv]

lemma processHostTags_host_app {a : Bool} {al : Nat → Except String Int} {k : String}
    {v : TagValue} {rest : List (String × TagValue)} {atun : Atun} {c : Nat} {e0 : Endpoint}
    (hk : goHasPre k "atun.io/host/" = true) (hv : unmarshalEndpoint v = Except.ok e0)
    (hl : e0.Local ≠ 0) :
    processHostTags a al ((k, v) :: rest) atun c =
      processHostTags a al rest
        { atun with Config := { atun.Config with Hosts := atun.Config.Hosts ++
            [{ e0 with Name := goTrimLeading k "atun.io/host/" }] } } c := by
  simp [processHostTags, goHasPre_atun_of_host k hk, ne_version_of_hostPre k hk,
    ne_env_of_hostPre k hk, hk, hv, hl]

lemma processHostTags_host_zero_noauto {al : Nat → Except String Int} {k : String}
    {v : TagValue} {rest : List (String × TagValue)} {atun : Atun} {c : Nat} {e0 : Endpoint}
    (hk : goHasPre k "atun.io/host/" = true) (hv : unmarshalEndpoint v = Except.ok e0)
    (hl : e0.Local = 0) :
    processHostTags false al ((k, v) :: rest) atun c =
      Except.error "can't allocate port 0" := by
  simp [processHostTags, goHasPre_atun_of_host k hk, ne_version_of_hostPre k hk,
    ne_env_of_hostPre k hk, hk, hv, hl]
  rfl

lemma processHostTags_host_zero_auto {al : Nat → Except String Int} {k : String}
    {v : TagValue} {rest : List (String × TagValue)} {atun : Atun} {c : Nat} {e0 : Endpoint}
    {port : Int}
    (hk : goHasPre k "atun.io/host/" = true) (hv : unmarshalEndpoint v = Except.ok e0)
    (hl : e0.Local = 0) (hal : al c = Except.ok port) :
    processHostTags true al ((k, v) :: rest) atun c =
      processHostTags true al rest
        { atun with Config := { atun.Config with Hosts := atun.Config.Hosts ++
            [{ e0 with Name := goTrimLeading k "atun.io/host/", Local := port }] } }
        (c + 1) := by
  simp [processHostTags, goHasPre_atun_of_host k hk, ne_version_of_hostPre k hk,
    ne_env_of_hostPre k hk, hk, hv, hl, hal]

lemma processHostTags_host_zero_auto_err {al : Nat → Except String Int} {k : String}
    {v : TagValue} {rest : List (String × TagValue)} {atun : Atun} {c : Nat} {e0 : Endpoint}
    {msg : String}
    (hk : goHasPre k "atun.io/host/" = true) (hv : unmarshalEndpoint v = Except.ok e0)
    (hl : e0.Local = 0) (hal : al c = Except.error msg) :
    processHostTags true al ((k, v) :: rest) atun c = Except.error msg := by
  simp [processHostTags, goHasPre_atun_of_host k hk, ne_version_of_hostPre k hk,
    ne_env_of_hostPre k hk, hk, hv, hl, hal]

lemma processHostTags_other {a : Bool} {al : Nat → Except String Int} {k : String}
    {v : TagValue} {rest : List (String × TagValue)} {atun : Atun} {c : Nat}
    (h1 : goHasPre k "atun.io" = true) (h2 : k ≠ "atun.io/version")
    (h3 : k ≠ "atun.io/env") (h4 : goHasPre k "atun.io/host/" = false) :
    processHostTags a al ((k, v) :: rest) atun c = processHostTags a al rest atun c := by
  simp [processHostTags, h1, h2, h3, h4]

lemma exists_mem_cons_elim {α : Type} {P : α → Prop} {x : α} {l : List α}
    (h : ∃ y ∈ x :: l, P y) (hx : ¬ P x) : ∃ y ∈ l, P y := by
  rcases h with ⟨y, hy, hP⟩
  rcases List.mem_cons.mp hy with rfl | hmem
  · exact absurd hP hx
  · exact ⟨y, hmem, hP⟩

/-- With the auto-allocate flag off, a tag list containing a zero-local host
tag makes the whole fold abort with exactly the allocation error. -/
lemma processHostTags_noauto_err (al : Nat → Except String Int)
    (tags : List (String × TagValue)) (atun : Atun) (c : Nat)
    (h : ∃ kv ∈ tags, zeroLocalHostTag kv) :
    processHostTags false al tags atun c = Except.error "can't allocate port 0" := by
  induction tags generalizing atun c with
  | nil => simp at h
  | cons hd rest ih =>
    obtain ⟨k, v⟩ := hd
    cases h1 : goHasPre k "atun.io" with
    | false =>
      rw [processHostTags_notatun h1]
      refine ih _ _ (exists_mem_cons_elim h ?_)
      rintro ⟨hpre, -⟩
      rw [goHasPre_atun_of_host k hpre] at h1
      cases h1
    | true =>
      by_cases h2 : k = "atun.io/version"
      · subst h2
        rw [processHostTags_version]
        refine ih _ _ (exists_mem_cons_elim h ?_)
        rintro ⟨hpre, -⟩
        have hpre2 : goHasPre "atun.io/version" "atun.io/host/" = true := hpre
        exact absurd hpre2 (by decide)
      · by_cases h3 : k = "atun.io/env"
        · subst h3
          rw [processHostTags_env]
          refine ih _ _ (exists_mem_cons_elim h ?_)
          rintro ⟨hpre, -⟩
          have hpre2 : goHasPre "atun.io/env" "atun.io/host/" = true := hpre
          exact absurd hpre2 (by decide)
        · cases h4 : goHasPre k "atun.io/host/" with
          | false =>
            rw [processHostTags_other h1 h2 h3 h4]
            refine ih _ _ (exists_mem_cons_elim h ?_)
            rintro ⟨hpre, -⟩
            rw [hpre] at h4
            cases h4
          | true =>
            cases hv : unmarshalEndpoint v with
            | error msg =>
              rw [processHostTags_host_skip h4 hv]
              refine ih _ _ (exists_mem_cons_elim h ?_)
              rintro ⟨-, e0, hok, -⟩
              rw [hv] at hok
              cases hok
            | ok e0 =>
              by_cases h5 : e0.Local = 0
              · exact processHostTags_host_zero_noauto h4 hv h5
              · rw [processHostTags_host_app h4 hv h5]
                refine ih _ _ (exists_mem_cons_elim h ?_)
                rintro ⟨-, e1, hok, hl⟩
                rw [hv] at hok
                cases hok
                exact h5 hl

/-- With the auto-allocate flag on and a never-failing allocator, the fold
always succeeds. -/
lemma processHostTags_auto_ok (al : Nat → Except String Int)
    (hal : ∀ n, ∃ p, al n = Except.ok p)
    (tags : List (String × TagValue)) (atun : Atun) (c : Nat) :
    ∃ a, processHostTags true al tags atun c = Except.ok a := by
  induction tags generalizing atun c with
  | nil => exact ⟨atun, rfl⟩
  | cons hd rest ih =>
    obtain ⟨k, v⟩ := hd
    cases h1 : goHasPre k "atun.io" with
    | false => rw [processHostTags_notatun h1]; exact ih _ _
    | true =>
      by_cases h2 : k = "atun.io/version"
      · subst h2; rw [processHostTags_version]; exact ih _ _
      · by_cases h3 : k = "atun.io/env"
        · subst h3; rw [processHostTags_env]; exact ih _ _
        · cases h4 : goHasPre k "atun.io/host/" with
          | false => rw [processHostTags_other h1 h2 h3 h4]; exact ih _ _
          | true =>
            cases hv : unmarshalEndpoint v with
            | error msg => rw [processHostTags_host_skip h4 hv]; exact ih _ _
            | ok e0 =>
              by_cases h5 : e0.Local = 0
              · obtain ⟨p, hp⟩ := hal c
                rw [processHostTags_host_zero_auto h4 hv h5 hp]
                exact ih _ _
              · rw [processHostTags_host_app h4 hv h5]
                exact ih _ _

/-- Removing a malformed host tag from anywhere in the tag list does not
change the result of the fold: the entry is skipped without effect. -/
lemma processHostTags_skip_malformed (a : Bool) (al : Nat → Except String Int)
    (pre post : List (String × TagValue)) (k s : String)
    (hk : goHasPre k "atun.io/host/" = true) (atun : Atun) (c : Nat) :
    processHostTags a al (pre ++ (k, TagValue.plain s) :: post) atun c =
      processHostTags a al (pre ++ post) atun c := by
  induction pre generalizing atun c with
  | nil =>
    exact processHostTags_host_skip hk rfl
  | cons hd rest ih =>
    obtain ⟨k0, v0⟩ := hd
    cases h1 : goHasPre k0 "atun.io" with
    | false => rw [List.cons_append, processHostTags_notatun h1,
        List.cons_append, processHostTags_notatun h1]; exact ih _ _
    | true =>
      by_cases h2 : k0 = "atun.io/version"
      · subst h2
        rw [List.cons_append, processHostTags_version,
          List.cons_append, processHostTags_version]
        exact ih _ _
      · by_cases h3 : k0 = "atun.io/env"
        · subst h3
          rw [List.cons_append, processHostTags_env,
            List.cons_append, processHostTags_env]
          exact ih _ _
        · cases h4 : goHasPre k0 "atun.io/host/" with
          | false =>
            rw [List.cons_append, processHostTags_other h1 h2 h3 h4,
              List.cons_append, processHostTags_other h1 h2 h3 h4]
            exact ih _ _
          | true =>
            cases hv : unmarshalEndpoint v0 with
            | error msg =>
              rw [List.cons_append, processHostTags_host_skip h4 hv,
                List.cons_append, processHostTags_host_skip h4 hv]
              exact ih _ _
            | ok e0 =>
              by_cases h5 : e0.Local = 0
              · cases a with
                | false =>
                  rw [List.cons_append, processHostTags_host_zero_noauto h4 hv h5,
                    List.cons_append, processHostTags_host_zero_noauto h4 hv h5]
                | true =>
                  cases hal : al c with
                  | error msg =>
                    rw [List.cons_append, processHostTags_host_zero_auto_err h4 hv h5 hal,
                      List.cons_append, processHostTags_host_zero_auto_err h4 hv h5 hal]
                  | ok p =>
                    rw [List.cons_append, processHostTags_host_zero_auto h4 hv h5 hal,
                      List.cons_append, processHostTags_host_zero_auto h4 hv h5 hal]
                    exact ih _ _
              · rw [List.cons_append, processHostTags_host_app h4 hv h5,
                  List.cons_append, processHostTags_host_app h4 hv h5]
                exact ih _ _

lemma unmarshal_hostTagJson (e : Endpoint) :
    unmarshalEndpoint (TagValue.jsonVal (hostTagJson e)) =
      Except.ok ⟨"", e.Proto, e.Remote, e.Local⟩ := rfl

lemma GetRouterHostConfig_ok_ok (a : Bool) (al : Nat → Except String Int)
    (tags : List (String × TagValue)) (u : String) :
    GetRouterHostConfig a al (Except.ok tags) (Except.ok u) =
      processHostTags a al tags ⟨"", ⟨"", u, []⟩⟩ 0 := rfl

/-- C2 (amended): for every Endpoint with a non-empty name and a nonzero
local port, encoding it as the provisioner's stack synthesis does (an
`atun.io/host/<name>` tag whose JSON payload has keys proto, local, remote)
and decoding the tag set back through the router-host-config parser yields
the Endpoint back, equal in all four fields (its name re-derived from the
tag-key suffix). -/
theorem C2_tagRoundTrip (e : Endpoint) (env u : String) (auto : Bool)
    (al : Nat → Except String Int) (hname : e.Name ≠ "") (hlocal : e.Local ≠ 0) :
    GetRouterHostConfig auto al (Except.ok (createStackTags "1" env [e]))
      (Except.ok u) = Except.ok ⟨"1", ⟨env, u, [e]⟩⟩ := by
  have hk : goHasPre (hostTagKey e) "atun.io/host/" = true := goHasPre_append _ _
  rw [GetRouterHostConfig_ok_ok]
  simp only [createStackTags, List.map]
  rw [processHostTags_version, processHostTags_env,
    processHostTags_host_app hk (unmarshal_hostTagJson e) hlocal,
    processHostTags_nil]
  rw [hostTagKey, goTrimLeading_append]
  rfl

/-- C2 counterexample: for the endpoint `{name: "db", proto: "ssm", remote:
3306, local: 0}` (non-empty name, so inside the claim's stated scope) the
round trip does not return the endpoint: with the auto-allocate flag off the
parse aborts, and with it on the local port is replaced by the freshly
allocated port. -/
theorem C2_counterexample :
    GetRouterHostConfig false (fun _ => Except.error "unused")
      (Except.ok (createStackTags "1" "dev" [⟨"db", "ssm", 3306, 0⟩]))
      (Except.ok "ubuntu") = Except.error "can't allocate port 0" ∧
    GetRouterHostConfig true (fun _ => Except.ok 54321)
      (Except.ok (createStackTags "1" "dev" [⟨"db", "ssm", 3306, 0⟩]))
      (Except.ok "ubuntu") =
      Except.ok ⟨"1", ⟨"dev", "ubuntu", [⟨"db", "ssm", 3306, 54321⟩]⟩⟩ := by
  exact ⟨rfl, rfl⟩

/-- C2 witness: the claim's worked example `{db, ssm, 3306, 13306}` round
trips, by `C2_tagRoundTrip`. -/
theorem C2_tagRoundTrip_witness :
    GetRouterHostConfig false (fun _ => Except.error "unused")
      (Except.ok (createStackTags "1" "dev" [⟨"db", "ssm", 3306, 13306⟩]))
      (Except.ok "ubuntu") =
      Except.ok ⟨"1", ⟨"dev", "ubuntu", [⟨"db", "ssm", 3306, 13306⟩]⟩⟩ :=
  C2_tagRoundTrip ⟨"db", "ssm", 3306, 13306⟩ "dev" "ubuntu" false
    (fun _ => Except.error "unused") (by decide) (by decide)

/-- C3: if any host tag decodes with local port 0 then, with the
auto-allocate flag off, router-host-config parsing fails with exactly the
"can't allocate port 0" error; with the flag on (and the allocator
succeeding, as a bound free port always does) parsing succeeds, and the
zero local port is replaced by the freshly allocated port. -/
theorem C3_zeroLocalPort (tags : List (String × TagValue)) (u : String)
    (al : Nat → Except String Int)
    (hzero : ∃ kv ∈ tags, zeroLocalHostTag kv)
    (hal : ∀ n, ∃ p, al n = Except.ok p) :
    GetRouterHostConfig false al (Except.ok tags) (Except.ok u) =
      Except.error "can't allocate port 0" ∧
    (∃ a, GetRouterHostConfig true al (Except.ok tags) (Except.ok u) = Except.ok a) ∧
    (∀ (name proto : String) (remote port : Int), al 0 = Except.ok port →
      GetRouterHostConfig true al
        (Except.ok [("atun.io/host/" ++ name,
          TagValue.jsonVal (hostTagJson ⟨name, proto, remote, 0⟩))])
        (Except.ok u) = Except.ok ⟨"", ⟨"", u, [⟨name, proto, remote, port⟩]⟩⟩) := by
  refine ⟨?_, ?_, ?_⟩
  · rw [GetRouterHostConfig_ok_ok]
    exact processHostTags_noauto_err al tags _ 0 hzero
  · rw [GetRouterHostConfig_ok_ok]
    exact processHostTags_auto_ok al hal tags _ 0
  · intro name proto remote port hp
    rw [GetRouterHostConfig_ok_ok]
    rw [processHostTags_host_zero_auto (goHasPre_append _ _)
      (unmarshal_hostTagJson ⟨name, proto, remote, 0⟩) rfl hp,
      processHostTags_nil, goTrimLeading_append]
    rfl

/-- C3 witness: a single `atun.io/host/db` tag with local port 0, with the
allocator returning 54321, by `C3_zeroLocalPort`. -/
theorem C3_zeroLocalPort_witness :
    GetRouterHostConfig false (fun _ => Except.ok 54321)
      (Except.ok [("atun.io/host/db",
        TagValue.jsonVal (hostTagJson ⟨"db", "ssm", 3306, 0⟩))])
      (Except.ok "ubuntu") = Except.error "can't allocate port 0" ∧
    GetRouterHostConfig true (fun _ => Except.ok 54321)
      (Except.ok [("atun.io/host/db",
        TagValue.jsonVal (hostTagJson ⟨"db", "ssm", 3306, 0⟩))])
      (Except.ok "ubuntu") =
      Except.ok ⟨"", ⟨"", "ubuntu", [⟨"db", "ssm", 3306, 54321⟩]⟩⟩ := by
  have h := C3_zeroLocalPort
    [("atun.io/host/db", TagValue.jsonVal (hostTagJson ⟨"db", "ssm", 3306, 0⟩))]
    "ubuntu" (fun _ => Except.ok 54321)
    ⟨("atun.io/host/db", TagValue.jsonVal (hostTagJson ⟨"db", "ssm", 3306, 0⟩)),
      List.mem_singleton.mpr rfl,
      by decide, ⟨"", "ssm", 3306, 0⟩, rfl, rfl⟩
    (fun _ => ⟨54321, rfl⟩)
  exact ⟨h.1, h.2.2 "db" "ssm" 3306 54321 rfl⟩

/-- C4: a host tag whose value is malformed JSON is skipped non-fatally:
parsing the tag list with the malformed entry gives exactly the same result
as parsing the list without it, wherever the entry sits, so one malformed
tag never hides another tag's endpoint and never fails the whole parse. -/
theorem C4_malformedTagSkipped (pre post : List (String × TagValue)) (k s u : String)
    (auto : Bool) (al : Nat → Except String Int)
    (hk : goHasPre k "atun.io/host/" = true) :
    GetRouterHostConfig auto al (Except.ok (pre ++ (k, TagValue.plain s) :: post))
      (Except.ok u) =
      GetRouterHostConfig auto al (Except.ok (pre ++ post)) (Except.ok u) := by
  rw [GetRouterHostConfig_ok_ok, GetRouterHostConfig_ok_ok]
  exact processHostTags_skip_malformed auto al pre post k s hk _ 0

/-- C4 witness: a malformed `atun.io/host/bad` tag appended after a valid
tag set decodes to the same result as without it, and the other host tag is
still decoded; by `C4_malformedTagSkipped`. -/
theorem C4_malformedTagSkipped_witness :
    GetRouterHostConfig false (fun _ => Except.error "unused")
      (Except.ok (createStackTags "1" "dev" [⟨"db", "ssm", 3306, 13306⟩] ++
        [("atun.io/host/bad", TagValue.plain "not-json")]))
      (Except.ok "ubuntu") =
    GetRouterHostConfig false (fun _ => Except.error "unused")
      (Except.ok (createStackTags "1" "dev" [⟨"db", "ssm", 3306, 13306⟩]))
      (Except.ok "ubuntu") ∧
    GetRouterHostConfig false (fun _ => Except.error "unused")
      (Except.ok (createStackTags "1" "dev" [⟨"db", "ssm", 3306, 13306⟩] ++
        [("atun.io/host/bad", TagValue.plain "not-json")]))
      (Except.ok "ubuntu") =
      Except.ok ⟨"1", ⟨"dev", "ubuntu", [⟨"db", "ssm", 3306, 13306⟩]⟩⟩ := by
  have h := C4_malformedTagSkipped (createStackTags "1" "dev" [⟨"db", "ssm", 3306, 13306⟩])
    [] "atun.io/host/bad" "not-json" "ubuntu" false (fun _ => Except.error "unused")
    (by decide)
  simp only [List.append_nil] at h
  exact ⟨h, by rfl⟩

lemma hostEntryError_isSome_of_defect (h : Endpoint)
    (hd : h.Name = "" ∨ h.Remote ≤ 0 ∨ h.Local < 0 ∨ h.Proto = "") :
    (hostEntryError h).isSome = true := by
  unfold hostEntryError
  rcases hd with h1 | h1 | h1 | h1 <;> split_ifs <;> simp_all

lemma hostEntryError_eq_none_of_valid (h : Endpoint)
    (hv : h.Name ≠ "" ∧ 0 < h.Remote ∧ 0 ≤ h.Local ∧ h.Proto ≠ "") :
    hostEntryError h = none := by
  unfold hostEntryError
  split_ifs <;> simp_all <;> omega

/-- C6: endpoint-list validation fails for an empty list; rejects any list
containing an entry with empty name, non-positive remote port, negative
local port, or empty protocol; accepts every non-empty list whose entries
all have non-empty name, positive remote, non-negative local, and non-empty
protocol; and the four per-field rejections produce four distinct,
field-naming error messages. -/
theorem C6_validateHostConfig :
    (∀ cfg : Atun, cfg.Config.Hosts = [] →
      validateHostConfig cfg =
        some "endpoints config is not set. Please set it via command line or environment variables.") ∧
    (∀ cfg : Atun,
      (∃ h ∈ cfg.Config.Hosts, h.Name = "" ∨ h.Remote ≤ 0 ∨ h.Local < 0 ∨ h.Proto = "") →
      (validateHostConfig cfg).isSome = true) ∧
    (∀ cfg : Atun, cfg.Config.Hosts ≠ [] →
      (∀ h ∈ cfg.Config.Hosts, h.Name ≠ "" ∧ 0 < h.Remote ∧ 0 ≤ h.Local ∧ h.Proto ≠ "") →
      validateHostConfig cfg = none) ∧
    validateHostConfig ⟨"1", ⟨"dev", "", [⟨"", "ssm", 3306, 1⟩]⟩⟩ =
      some "Endpoint Name is not set. Please set it via config file." ∧
    validateHostConfig ⟨"1", ⟨"dev", "", [⟨"db", "ssm", 0, 1⟩]⟩⟩ =
      some "Endpoint Remote port is not set. Please set it via config file." ∧
    validateHostConfig ⟨"1", ⟨"dev", "", [⟨"db", "ssm", 3306, -1⟩]⟩⟩ =
      some "Endpoint Local port is not set. Please set it via config file." ∧
    validateHostConfig ⟨"1", ⟨"dev", "", [⟨"db", "", 3306, 1⟩]⟩⟩ =
      some "Endpoint Protocol is not set. Please set it via config file." ∧
    List.Pairwise (fun a b => a ≠ b)
      ["Endpoint Name is not set. Please set it via config file.",
       "Endpoint Remote port is not set. Please set it via config file.",
       "Endpoint Local port is not set. Please set it via config file.",
       "Endpoint Protocol is not set. Please set it via config file."] := by
  refine ⟨?_, ?_, ?_, by rfl, by rfl, by rfl, by rfl, by decide⟩
  · intro cfg hempty
    simp [validateHostConfig, hempty]
  · intro cfg hdef
    rcases hdef with ⟨h, hmem, hd⟩
    have hne : cfg.Config.Hosts ≠ [] := by
      intro hnil
      rw [hnil] at hmem
      exact absurd hmem (List.not_mem_nil h)
    rw [validateHostConfig, if_neg hne]
    cases hfs : cfg.Config.Hosts.findSome? hostEntryError with
    | none =>
      have hnone := List.findSome?_eq_none_iff.mp hfs h hmem
      have hsome := hostEntryError_isSome_of_defect h hd
      rw [hnone] at hsome
      cases hsome
    | some m => rfl
  · intro cfg hne hall
    rw [validateHostConfig, if_neg hne]
    exact List.findSome?_eq_none_iff.mpr
      (fun h hm => hostEntryError_eq_none_of_valid h (hall h hm))

/-- C6 witness: an empty list fails, a fully valid two-entry list (one entry
with local port 0) passes, and a list containing an empty-name entry is
rejected; by `C6_validateHostConfig`. -/
theorem C6_validateHostConfig_witness :
    validateHostConfig ⟨"1", ⟨"dev", "", []⟩⟩ =
      some "endpoints config is not set. Please set it via command line or environment variables." ∧
    validateHostConfig ⟨"1", ⟨"dev", "",
      [⟨"db", "ssm", 3306, 13306⟩, ⟨"web", "ssm", 443, 0⟩]⟩⟩ = none ∧
    (validateHostConfig ⟨"1", ⟨"dev", "",
      [⟨"db", "ssm", 3306, 13306⟩, ⟨"", "ssm", 22, 1⟩]⟩⟩).isSome = true := by
  refine ⟨C6_validateHostConfig.1 _ rfl,
    C6_validateHostConfig.2.2.1 _ (by decide) (by decide),
    C6_validateHostConfig.2.1 _ (by decide)⟩

/-- C9: endpoint-list validation accepts a local port equal to 0
unconditionally (the function takes no auto-allocate flag at all), even
though router-host-config parsing of the same endpoints' encoded tags fails
with the allocation error whenever the auto-allocate flag is off. -/
theorem C9_zeroLocalAcceptedThenRejected (hosts : List Endpoint) (u env : String)
    (al : Nat → Except String Int) (hne : hosts ≠ [])
    (hall : ∀ h ∈ hosts, h.Name ≠ "" ∧ 0 < h.Remote ∧ h.Local = 0 ∧ h.Proto ≠ "") :
    validateHostConfig ⟨"1", ⟨env, u, hosts⟩⟩ = none ∧
    GetRouterHostConfig false al (Except.ok (createStackTags "1" env hosts))
      (Except.ok u) = Except.error "can't allocate port 0" := by
  constructor
  · show (if hosts = [] then
        some "endpoints config is not set. Please set it via command line or environment variables."
      else hosts.findSome? hostEntryError) = none
    rw [if_neg hne]
    refine List.findSome?_eq_none_iff.mpr (fun h hm => ?_)
    obtain ⟨h1, h2, h3, h4⟩ := hall h hm
    exact hostEntryError_eq_none_of_valid h ⟨h1, h2, by omega, h4⟩
  · rw [GetRouterHostConfig_ok_ok]
    obtain ⟨h0, rest, rfl⟩ := List.exists_cons_of_ne_nil hne
    exact processHostTags_noauto_err al _ _ 0
      ⟨(hostTagKey h0, TagValue.jsonVal (hostTagJson h0)),
        List.mem_cons_of_mem _ (List.mem_cons_of_mem _
          (List.mem_map_of_mem _ (List.mem_cons_self h0 rest))),
        goHasPre_append "atun.io/host/" h0.Name,
        ⟨"", h0.Proto, h0.Remote, h0.Local⟩, unmarshal_hostTagJson h0,
        (hall h0 (List.mem_cons_self h0 rest)).2.2.1⟩

/-- C9 witness: the single endpoint `{db, ssm, 3306, 0}` passes validation
but its encoded tag fails router-host-config parsing with the flag off; by
`C9_zeroLocalAcceptedThenRejected`. -/
theorem C9_zeroLocalAcceptedThenRejected_witness :
    validateHostConfig ⟨"1", ⟨"dev", "ubuntu", [⟨"db", "ssm", 3306, 0⟩]⟩⟩ = none ∧
    GetRouterHostConfig false (fun _ => Except.ok 54321)
      (Except.ok (createStackTags "1" "dev" [⟨"db", "ssm", 3306, 0⟩]))
      (Except.ok "ubuntu") = Except.error "can't allocate port 0" :=
  C9_zeroLocalAcceptedThenRejected [⟨"db", "ssm", 3306, 0⟩] "ubuntu" "dev"
    (fun _ => Except.ok 54321) (by decide) (by decide)

/-- C5 (amended): the key-installation operation polls the invocation up to
5 times (stopping at the first conclusive attempt, else keeping the 5th);
on a localhost/loopback endpoint, `Status = "Success"` alone decides
success; on a real provider endpoint the operation succeeds if and only if
the response code is zero OR the status is Success — an error is returned
only when the code is nonzero AND the status differs from Success (not, as
the claim states, whenever either condition fails). -/
theorem C5_ensureKeySuccessCriteria (url : String)
    (polls : Nat → Except String Invocation) (out : Invocation) (r : Int) :
    (∀ q : Nat → Except String Invocation, pollBreak (q 0) = true →
      runPolls q 0 5 = q 0) ∧
    (∀ q : Nat → Except String Invocation, (∀ i, i < 5 → pollBreak (q i) = false) →
      runPolls q 0 5 = q 4) ∧
    (runPolls polls 0 5 = Except.ok out →
      ((goContains url "localhost" || goContains url "127.0.0.1") = true →
        (EnsureSSHPublicKeyPresent url (Except.ok ()) polls = Except.ok () ↔
          out.Status = "Success")) ∧
      ((goContains url "localhost" || goContains url "127.0.0.1") = false →
        out.ResponseCode = some r →
        (EnsureSSHPublicKeyPresent url (Except.ok ()) polls = Except.ok () ↔
          (r = 0 ∨ out.Status = "Success")))) := by
  refine ⟨?_, ?_, fun hloop => ⟨fun hlocal => ?_, fun hlocal hrc => ?_⟩⟩
  · intro q h
    simp [runPolls, h]
  · intro q h
    have h0 := h 0 (by norm_num)
    have h1 := h 1 (by norm_num)
    have h2 := h 2 (by norm_num)
    have h3 := h 3 (by norm_num)
    simp [runPolls, h0, h1, h2, h3]
  · constructor
    · intro hok
      by_contra hs
      simp [EnsureSSHPublicKeyPresent, hloop, hlocal, hs] at hok
    · intro hs
      simp [EnsureSSHPublicKeyPresent, hloop, hlocal, hs]
  · by_cases hcond : r ≠ 0 ∧ out.Status ≠ "Success"
    · simp only [EnsureSSHPublicKeyPresent, hloop, hlocal, Bool.false_eq_true,
        if_false, hrc, if_pos hcond]
      constructor
      · intro hok
        cases hok
      · intro hor
        rcases hcond with ⟨hr, hst⟩
        rcases hor with hor | hor
        · exact absurd hor hr
        · exact absurd hor hst
    · simp only [EnsureSSHPublicKeyPresent, hloop, hlocal, Bool.false_eq_true,
        if_false, hrc, if_neg hcond]
      constructor
      · intro _
        by_contra hor
        push_neg at hor
        exact hcond ⟨hor.1, hor.2⟩
      · intro _
        trivial

/-- C5 counterexample: on a real provider endpoint with the poll reporting
`Status = "Success"` but response code 1 (nonzero), the claim requires an
error — both criteria were said to be required — yet the code returns
success, because the source only errors when code is nonzero AND status is
not Success. -/
theorem C5_counterexample :
    EnsureSSHPublicKeyPresent "https://ssm.us-east-1.amazonaws.com" (Except.ok ())
      (fun _ => Except.ok ⟨"Success", some 1, "", ""⟩) = Except.ok () ∧
    (1 : Int) ≠ 0 := by
  exact ⟨rfl, by norm_num⟩

/-- C5 witness: instantiating `C5_ensureKeySuccessCriteria` — a conclusive
first poll is returned immediately; a real-endpoint run whose five polls all
report `Failed` with code 3 is rejected; a localstack run with status
Success (and no response code at all) is accepted. -/
theorem C5_ensureKeySuccessCriteria_witness :
    runPolls (fun _ => Except.ok ⟨"Success", some 0, "", ""⟩) 0 5 =
      Except.ok ⟨"Success", some 0, "", ""⟩ ∧
    (EnsureSSHPublicKeyPresent "https://ssm.us-east-1.amazonaws.com" (Except.ok ())
      (fun _ => Except.ok ⟨"Failed", some 3, "", "e"⟩) = Except.ok () ↔
      ((3 : Int) = 0 ∨ "Failed" = "Success")) ∧
    (EnsureSSHPublicKeyPresent "http://localhost:4566" (Except.ok ())
      (fun _ => Except.ok ⟨"Success", none, "", ""⟩) = Except.ok () ↔
      "Success" = "Success") := by
  have ha := C5_ensureKeySuccessCriteria "https://ssm.us-east-1.amazonaws.com"
    (fun _ => Except.ok ⟨"Failed", some 3, "", "e"⟩) ⟨"Failed", some 3, "", "e"⟩ 3
  have hb := C5_ensureKeySuccessCriteria "http://localhost:4566"
    (fun _ => Except.ok ⟨"Success", none, "", ""⟩) ⟨"Success", none, "", ""⟩ 0
  refine ⟨ha.1 (fun _ => Except.ok ⟨"Success", some 0, "", ""⟩) (by decide),
    (ha.2.2 (by rfl)).2 (by decide) rfl,
    (hb.2.2 (by rfl)).1 (by decide)⟩

/-- C7: the MFA freshness check requires an update for a missing/unloadable
cache file, and for a loaded file it reports the cache fresh (returns
`false`) exactly when the `<profile>-mfa` section is found, has exactly 4
keys, and its `token_expiration` parses to an instant not before now —
so every listed failure (missing section, key count other than 4, an
unparsable expiration, a past expiration) yields `true`. -/
theorem C7_isMFAUpdateRequired (parse : String → Option Int) (now : Int)
    (profile : String) (sections : List IniSection) :
    isMFAUpdateRequired parse now none profile = true ∧
    (isMFAUpdateRequired parse now (some sections) profile = false ↔
      ∃ s, sections.find? (fun s2 => s2.name == profile ++ "-mfa") = some s ∧
        s.keys.length = 4 ∧
        ∃ w t, s.keys.lookup "token_expiration" = some w ∧
          parse w = some t ∧ ¬ t < now) := by
  refine ⟨rfl, ?_⟩
  show (match sections.find? (fun s2 => s2.name == profile ++ "-mfa") with
    | none => true
    | some sect => mfaSectionStale parse now sect) = false ↔ _
  cases hf : sections.find? (fun s2 => s2.name == profile ++ "-mfa") with
  | none =>
    simp only [Bool.true_eq_false, false_iff]
    rintro ⟨s, hs, -⟩
    cases hs
  | some sect =>
    unfold mfaSectionStale
    by_cases hl : sect.keys.length = 4
    · simp only [hl, ne_eq, not_true_eq_false, if_false]
      cases hk : sect.keys.lookup "token_expiration" with
      | none =>
        simp only []
        simp only [Bool.true_eq_false, false_iff]
        rintro ⟨s, hs, -, w, t, hw, -⟩
        cases hs
        rw [hk] at hw
        cases hw
      | some w =>
        simp only []
        cases hp : parse w with
        | none =>
          simp only []
          simp only [Bool.true_eq_false, false_iff]
          rintro ⟨s, hs, -, w2, t, hw, hp2, -⟩
          cases hs
          rw [hk] at hw
          cases hw
          rw [hp] at hp2
          cases hp2
        | some t =>
          simp only []
          rw [decide_eq_false_iff_not]
          constructor
          · intro hnot
            exact ⟨sect, rfl, hl, w, t, hk, hp, hnot⟩
          · rintro ⟨s, hs, -, w2, t2, hw, hp2, hnot⟩
            cases hs
            rw [hk] at hw
            cases hw
            rw [hp] at hp2
            cases hp2
            exact hnot
    · simp only [ne_eq, hl, not_false_eq_true, if_true, Bool.true_eq_false, false_iff]
      rintro ⟨s, hs, hlen, -⟩
      cases hs
      exact hl hlen

/-- C7 witness: instantiating `C7_isMFAUpdateRequired` with a concrete
4-key `dev-mfa` section whose expiration parses to instant 100 — a missing
file requires an update; at now = 50 the cache is fresh; at now = 200 it is
stale. -/
theorem C7_isMFAUpdateRequired_witness :
    isMFAUpdateRequired (fun s => if s = "exp" then some 100 else none) 50 none "dev" = true ∧
    isMFAUpdateRequired (fun s => if s = "exp" then some 100 else none) 50
      (some [⟨"dev-mfa", [("aws_access_key_id", "A"), ("aws_secret_access_key", "S"),
        ("aws_session_token", "T"), ("token_expiration", "exp")]⟩]) "dev" = false ∧
    isMFAUpdateRequired (fun s => if s = "exp" then some 100 else none) 200
      (some [⟨"dev-mfa", [("aws_access_key_id", "A"), ("aws_secret_access_key", "S"),
        ("aws_session_token", "T"), ("token_expiration", "exp")]⟩]) "dev" = true := by
  refine ⟨(C7_isMFAUpdateRequired (fun s => if s = "exp" then some 100 else none)
      50 "dev" []).1,
    (C7_isMFAUpdateRequired (fun s => if s = "exp" then some 100 else none)
      50 "dev" _).2.mpr
      ⟨⟨"dev-mfa", [("aws_access_key_id", "A"), ("aws_secret_access_key", "S"),
        ("aws_session_token", "T"), ("token_expiration", "exp")]⟩, rfl, rfl,
        "exp", 100, rfl, rfl, by norm_num⟩, ?_⟩
  cases hb : isMFAUpdateRequired (fun s => if s = "exp" then some 100 else none) 200
      (some [⟨"dev-mfa", [("aws_access_key_id", "A"), ("aws_secret_access_key", "S"),
        ("aws_session_token", "T"), ("token_expiration", "exp")]⟩]) "dev" with
  | true => rfl
  | false =>
    rcases (C7_isMFAUpdateRequired (fun s => if s = "exp" then some 100 else none)
        200 "dev" _).2.mp hb with ⟨s, hs, -, w, t, hw, hp, hnot⟩
    have hs2 : some (⟨"dev-mfa", [("aws_access_key_id", "A"), ("aws_secret_access_key", "S"),
      ("aws_session_token", "T"), ("token_expiration", "exp")]⟩ : IniSection) = some s := hs
    cases hs2
    have hw2 : some "exp" = some w := hw
    cases hw2
    have hp2 : some (100 : Int) = some t := hp
    cases hp2
    exact absurd (by norm_num) hnot

lemma osIsExist_true_iff (e : GoError) :
    osIsExist e = true ↔ ∃ p, e = GoError.pathErrorExist p := by
  cases e <;> simp [osIsExist]

/-- C8: evaluating `SaveConfig` at the claim's failing input. With
`atun.toml` already present, the existing file is left unwritten, but the
call returns viper's already-exists error instead of the claimed nil —
viper's `ConfigFileAlreadyExistsError` is not an os-package error, so the
`os.IsExist`-guarded warn-and-return-nil branch (the code's visible intent)
can never fire. With no existing file, the config is written and nil is
returned. -/
theorem C8_saveConfig_divergence :
    SaveConfig true = (false, some (GoError.configFileAlreadyExists "atun.toml")) ∧
    SaveConfig false = (true, none) := by
  exact ⟨rfl, rfl⟩

/-- C10: when the instance query returns a non-empty list in which no
instance has both a non-empty id and state "running",
`GetRouterHostIDFromTags` returns the empty string together with a nil
error (`Except.ok ""`); the "no instances found ... RUNNING" error is
produced only when the returned list is empty. -/
theorem C10_fallThroughNoError (tunnels : List String) (instances : List Ec2Instance)
    (hne : instances ≠ [])
    (hnone : ∀ i ∈ instances, (i.InstanceId != "" && i.StateName == "running") = false) :
    GetRouterHostIDFromTags (Except.ok tunnels) (Except.ok instances) = Except.ok "" ∧
    GetRouterHostIDFromTags (Except.ok tunnels) (Except.ok []) =
      Except.error "no instances found with required tags and in state RUNNING" := by
  constructor
  · show (if instances.length = 0 then
        Except.error "no instances found with required tags and in state RUNNING"
      else
        match instances.find? (fun i => i.InstanceId != "" && i.StateName == "running") with
        | some i => Except.ok i.InstanceId
        | none => Except.ok "") = Except.ok ""
    rw [if_neg (by simp [List.length_eq_zero, hne])]
    have hfind : instances.find? (fun i => i.InstanceId != "" && i.StateName == "running") =
        none := by
      rw [List.find?_eq_none]
      intro i hi
      simp [hnone i hi]
    rw [hfind]
  · rfl

/-- C10 witness: a two-instance list — one running instance with an empty
id, one stopped instance with a real id — yields `Except.ok ""`, by
`C10_fallThroughNoError`. -/
theorem C10_fallThroughNoError_witness :
    GetRouterHostIDFromTags (Except.ok [])
      (Except.ok [⟨"", "running"⟩, ⟨"i-0abc", "stopped"⟩]) = Except.ok "" ∧
    GetRouterHostIDFromTags (Except.ok []) (Except.ok []) =
      Except.error "no instances found with required tags and in state RUNNING" :=
  C10_fallThroughNoError [] [⟨"", "running"⟩, ⟨"i-0abc", "stopped"⟩]
    (by decide) (by decide)
